import Mathlib

/-
Shallow embedding of the balance-sheet extraction and validation engine
of the pdf-to-excel repository (populater.py and validator.py).

Modelling conventions:
* Python floats are modelled as rationals (ℚ); all numeric literals the
  engine handles are decimal, so rational arithmetic is exact for them.
* Python dicts are modelled as ordered association lists (`Entries`),
  matching insertion-order iteration and the replace-or-append semantics
  of dict assignment.
* The regex patterns of populater.py all have the restricted shape
  "literal words separated by one-or-more-whitespace, then a captured
  number \d+(?:,\d+)*, optionally wrapped in literal parentheses"; the
  matcher below implements exactly this shape (case-insensitively, first
  match in document order, greedy capture, which coincides with Python's
  backtracking semantics for patterns of this shape, as argued in the
  doc comments).
-/

namespace BalanceSheet

/-! ### Character utilities -/

/-- ASCII whitespace matched by the regex whitespace class used in
`re.sub(r'[,\s]', ...)` and the `\s+` tokens of the locator patterns. -/
def isPySpace (c : Char) : Bool :=
  c = ' ' || c = '\t' || c = '\n' || c = '\r' || c = '\x0b' || c = '\x0c'

/-- Decimal digit test (`\d` for ASCII input). -/
def isDigitC (c : Char) : Bool := '0' ≤ c && c ≤ '9'

/-- Numeric value of a digit-character list, most significant digit first. -/
def digitsToNat (cs : List Char) : ℕ :=
  cs.foldl (fun a c => 10 * a + (c.toNat - 48)) 0

def allDigits (cs : List Char) : Bool := cs.all isDigitC

def isExpChar (c : Char) : Bool := c = 'e' || c = 'E'

/-- Powers of ten on ℚ, by plain recursion so that it reduces in the kernel. -/
def pow10 : ℕ → ℚ
  | 0 => 1
  | n + 1 => 10 * pow10 n

/-- Powers of ten for an integer exponent. -/
def zpow10 : ℤ → ℚ
  | Int.ofNat n => pow10 n
  | Int.negSucc n => 1 / pow10 (n + 1)

/-! ### Numeric Normalizer (populater.py, `clean_number`) -/

/-- Apply an optional leading minus sign. -/
def applySign (neg : Bool) (q : ℚ) : ℚ := if neg then -q else q

/-- Exponent part of a float literal: optional sign then digits. -/
def parseExp (cs : List Char) : Option ℤ :=
  match cs with
  | '-' :: r => if !r.isEmpty && allDigits r then some (-(digitsToNat r : ℤ)) else Option.none
  | '+' :: r => if !r.isEmpty && allDigits r then some ((digitsToNat r : ℤ)) else Option.none
  | r => if !r.isEmpty && allDigits r then some ((digitsToNat r : ℤ)) else Option.none

/-- Mantissa of a float literal: digits with at most one decimal point,
at least one digit overall. -/
def parseMantissa (neg : Bool) (cs : List Char) : Option ℚ :=
  let ip := cs.takeWhile (fun c => c != '.')
  match cs.dropWhile (fun c => c != '.') with
  | [] =>
    if !ip.isEmpty && allDigits ip then some (applySign neg (digitsToNat ip : ℚ))
    else Option.none
  | _ :: fp =>
    if (!ip.isEmpty || !fp.isEmpty) && allDigits ip && allDigits fp then
      some (applySign neg ((digitsToNat ip : ℚ) + (digitsToNat fp : ℚ) / pow10 fp.length))
    else Option.none

/-- Model of Python `float()` applied to the cleaned literal: optional
sign, then digits with at most one decimal point, then an optional
exponent part.  (The `inf`/`nan` words and underscore separators that
CPython also accepts are outside the model; no input produced by this
engine's cleaning step contains them.) -/
def pyFloat (cs : List Char) : Option ℚ :=
  let sb : Bool × List Char :=
    match cs with
    | c :: r => if c = '-' then (true, r) else if c = '+' then (false, r) else (false, c :: r)
    | [] => (false, [])
  let mant := sb.2.takeWhile (fun c => !isExpChar c)
  match sb.2.dropWhile (fun c => !isExpChar c) with
  | [] => parseMantissa sb.1 mant
  | _ :: ex => (parseMantissa sb.1 mant).bind fun m => (parseExp ex).map fun e => m * zpow10 e

/-- Model of `re.sub(r'[,\s]', '', value_str)`: drop commas and whitespace. -/
def stripCommaWS (cs : List Char) : List Char :=
  cs.filter (fun c => !(c = ',' || isPySpace c))

/-- The accounting-parenthesis step of `clean_number`: if the cleaned
literal starts with `(` and ends with `)`, strip them and prepend `-`. -/
def parenAdjust (cs : List Char) : List Char :=
  if cs.head? = some '(' ∧ cs.getLast? = some ')' then '-' :: (cs.drop 1).dropLast else cs

/-- Body of `clean_number` on the character list of a (non-None) string. -/
def clean_number_chars (cs : List Char) : ℚ :=
  if cs.isEmpty then 0
  else
    match pyFloat (parenAdjust (stripCommaWS cs)) with
    | some q => q
    | Option.none => 0

/-- populater.py `clean_number(value_str)`.  `Option.none` models a
Python `None` argument; `if not value_str` makes both `None` and the
empty string return 0. -/
def clean_number (value_str : Option String) : ℚ :=
  match value_str with
  | Option.none => 0
  | some s => clean_number_chars s.toList

/-! ### Field Extractor (populater.py, `extract_value_from_text`)

Every numeric locator pattern of populater.py has the shape
`w₁\s+w₂\s+…\s+wₖ\s+(\d+(?:,\d+)*)` — literal words separated by `\s+` —
and the treasury-stock pattern additionally wraps the capture in literal
parentheses.  For this shape, maximal munch coincides with Python's
greedy backtracking: every `\s+`/`\s*` is followed by a non-whitespace
literal, and the only token that can follow the capture is `)`, which no
shorter capture can be followed by (a shorter capture ends either inside
a digit run or right before a `,digits` group). -/

/-- One locator pattern: literal words separated by `\s+`, then `\s+`
and the numeric capture group, wrapped in literal parens if `paren`. -/
structure Pat where
  words : List String
  paren : Bool
deriving DecidableEq

/-- Match a literal word case-insensitively (re.IGNORECASE) at the head
of the input, returning the rest. -/
def dropWord : List Char → List Char → Option (List Char)
  | [], cs => some cs
  | _ :: _, [] => Option.none
  | w :: ws, c :: cs => if w.toLower = c.toLower then dropWord ws cs else Option.none

/-- Match `\s+` (one or more whitespace characters, maximal munch). -/
def dropWS1 (cs : List Char) : Option (List Char) :=
  match cs with
  | c :: rest => if isPySpace c then some (rest.dropWhile isPySpace) else Option.none
  | [] => Option.none

/-- Zero or more `,\d+` groups (the `(?:,\d+)*` part of the capture),
greedy; returns (consumed characters, rest).  Fuel-based so that it
reduces in the kernel; the fuel is the input length. -/
def commaGroupsF : ℕ → List Char → List Char × List Char
  | 0, cs => ([], cs)
  | fuel + 1, cs =>
    match cs with
    | ',' :: rest =>
      let ds := rest.takeWhile isDigitC
      if ds.isEmpty then ([], cs)
      else
        let mr := commaGroupsF fuel (rest.dropWhile isDigitC)
        (',' :: (ds ++ mr.1), mr.2)
    | _ => ([], cs)

/-- The capture group `\d+(?:,\d+)*` (greedy): at least one digit, then
comma groups; returns (captured characters, rest). -/
def takeNum (cs : List Char) : Option (List Char × List Char) :=
  let ds := cs.takeWhile isDigitC
  if ds.isEmpty then Option.none
  else
    let rest := cs.dropWhile isDigitC
    let mr := commaGroupsF rest.length rest
    some (ds ++ mr.1, mr.2)

/-- Match the words of a pattern, each followed by `\s+`. -/
def matchWords : List String → List Char → Option (List Char)
  | [], cs => some cs
  | w :: ws, cs => (dropWord w.toList cs).bind fun cs₁ => (dropWS1 cs₁).bind (matchWords ws)

/-- Try to match a whole pattern at the current position; on success
return the capture group's characters. -/
def matchPatAt (pat : Pat) (cs : List Char) : Option (List Char) :=
  (matchWords pat.words cs).bind fun cs₁ =>
    if pat.paren then
      match cs₁ with
      | '(' :: cs₂ =>
        (takeNum cs₂).bind fun cr =>
          match cr.2 with
          | ')' :: _ => some cr.1
          | _ => Option.none
      | _ => Option.none
    else
      (takeNum cs₁).map Prod.fst

/-- Model of `re.search`: try each position left to right, first match wins. -/
def searchAux (pat : Pat) : List Char → Option (List Char)
  | [] => matchPatAt pat []
  | c :: rest =>
    match matchPatAt pat (c :: rest) with
    | some cap => some cap
    | Option.none => searchAux pat rest

def searchPat (pat : Pat) (cs : List Char) : Option (List Char) := searchAux pat cs

/-- populater.py `extract_value_from_text(text, pattern)`: first match's
captured group through `clean_number`; `0` when there is no match. -/
def extract_value_from_text (text : String) (pat : Pat) : ℚ :=
  match searchPat pat text.toList with
  | some g => clean_number (some (String.mk g))
  | Option.none => 0

/-! ### Header-field locators (populater.py lines 52-59)

`re.search(r'([A-Z]+),?\s*Inc\.?', text)` (case-sensitive) and
`re.search(r'As of\s+([^\n]+)', text, re.IGNORECASE)`.  `[A-Z]+` is
greedy with backtracking (shortening the run one character at a time);
`,?` and `\s*` admit maximal munch because the following literal `Inc`
starts with a non-comma, non-whitespace character; `\s+` before `[^\n]+`
backtracks only when the text ends inside the whitespace run. -/

def isUpperAZ (c : Char) : Bool := 'A' ≤ c && c ≤ 'Z'

/-- Does `,?\s*Inc\.?` match at this position? (`\.?` and anything after
`Inc` are irrelevant to search success and to the capture). -/
def companyTail (cs : List Char) : Bool :=
  let cs₁ := match cs with | ',' :: r => r | r => r
  match cs₁.dropWhile isPySpace with
  | 'I' :: 'n' :: 'c' :: _ => true
  | _ => false

/-- Backtracking over the greedy `[A-Z]+` run: try the full run first,
then hand back one trailing character at a time. -/
def companyBack : ℕ → List Char → List Char → Option (List Char)
  | 0, _, _ => Option.none
  | fuel + 1, run, rest =>
    match run with
    | [] => Option.none
    | _ :: _ =>
      if companyTail rest then some run
      else
        match run.getLast? with
        | some c => companyBack fuel run.dropLast (c :: rest)
        | Option.none => Option.none

def companyAt (cs : List Char) : Option (List Char) :=
  companyBack (cs.length + 1) (cs.takeWhile isUpperAZ) (cs.dropWhile isUpperAZ)

def companySearchAux : ℕ → List Char → Option (List Char)
  | 0, _ => Option.none
  | fuel + 1, cs =>
    match companyAt cs with
    | some r => some r
    | Option.none =>
      match cs with
      | [] => Option.none
      | _ :: rest => companySearchAux fuel rest

def companySearch (cs : List Char) : Option (List Char) :=
  companySearchAux (cs.length + 1) cs

/-- Python `str.strip()` (ASCII whitespace). -/
def pyStrip (cs : List Char) : List Char :=
  ((cs.dropWhile isPySpace).reverse.dropWhile isPySpace).reverse

/-- Match `As of\s+([^\n]+)` at one position (IGNORECASE). -/
def dateAt (cs : List Char) : Option (List Char) :=
  (dropWord "As of".toList cs).bind fun rest =>
    match rest with
    | c :: _ =>
      if isPySpace c then
        match rest.dropWhile isPySpace with
        | t :: ts => some ((t :: ts).takeWhile (fun x => x != '\n'))
        | [] =>
          match ((rest.takeWhile isPySpace).drop 1).reverse.find? (fun x => x != '\n') with
          | some d => some [d]
          | Option.none => Option.none
      else Option.none
    | [] => Option.none

def dateSearchAux : ℕ → List Char → Option (List Char)
  | 0, _ => Option.none
  | fuel + 1, cs =>
    match dateAt cs with
    | some r => some r
    | Option.none =>
      match cs with
      | [] => Option.none
      | _ :: rest => dateSearchAux fuel rest

def dateSearch (cs : List Char) : Option (List Char) :=
  dateSearchAux (cs.length + 1) cs

/-! ### Python values and dicts

Python dicts are ordered association lists; assignment replaces the
value in place when the key exists and appends otherwise. -/

mutual
inductive PyVal where
  | num (q : ℚ)
  | str (s : String)
  | vnone
  | dict (es : Entries)
  | listv (xs : PyList)
inductive Entries where
  | nil
  | cons (k : String) (v : PyVal) (rest : Entries)
inductive PyList where
  | nil
  | cons (v : PyVal) (rest : PyList)
end

/-- Dict lookup. -/
def entGet : Entries → String → Option PyVal
  | .nil, _ => Option.none
  | .cons k v rest, key => if k = key then some v else entGet rest key

/-- Dict assignment: replace in place if the key exists, else append. -/
def entSet : Entries → String → PyVal → Entries
  | .nil, key, v => .cons key v .nil
  | .cons k w rest, key, v =>
    if k = key then .cons k v rest else .cons k w (entSet rest key v)

/-- Chained assignment `populated[k₁][k₂]…[kₙ] = v`: every key but the last must exist and
hold a dict (otherwise Python raises KeyError/TypeError, modelled as
`Option.none`); the final assignment replaces-or-appends. -/
def setPath : PyVal → List String → PyVal → Option PyVal
  | .dict es, [k], v => some (.dict (entSet es k v))
  | .dict es, k :: k' :: rest, v =>
    match entGet es k with
    | some sub => (setPath sub (k' :: rest) v).map fun sub2 => .dict (entSet es k sub2)
    | Option.none => Option.none
  | _, _, _ => Option.none

/-- Chained dict lookups. -/
def getPath : PyVal → List String → Option PyVal
  | v, [] => some v
  | .dict es, k :: rest => (entGet es k).bind fun sub => getPath sub rest
  | _, _ :: _ => Option.none

/-- Read a numeric leaf. -/
def asNum : Option PyVal → Option ℚ
  | some (.num q) => some q
  | _ => Option.none

/-! ### Template Populator (populater.py, `populate_balance_sheet`)

The function body is a straight-line sequence of path assignments; it is
modelled as a fold of `setPath` over the assignment list below, in
source order.  The two header assignments and the treasury-stock
assignment are conditional on their search succeeding; every numeric
leaf in `tableA`/`tableB` is assigned unconditionally. -/

/-- A value assigned by the populator (always a number or a string). -/
inductive Leaf where
  | num (q : ℚ)
  | str (s : String)

def Leaf.toVal : Leaf → PyVal
  | .num q => .num q
  | .str s => .str s

/-- Locator table, part 1: the unconditional numeric assignments from
`1010_checking` (line 70) through `3000_capital_stock` (line 176), in
source order. -/
def tableA : List (List String × Pat) :=
  [ (["assets", "current_assets", "cash", "1010_checking"], ⟨["1010", "Checking"], false⟩),
    (["assets", "current_assets", "cash", "1020_savings"], ⟨["1020", "Savings"], false⟩),
    (["assets", "current_assets", "cash", "1030_petty_cash"], ⟨["1030", "Petty", "Cash"], false⟩),
    (["assets", "current_assets", "cash", "total_cash"], ⟨["Total", "Cash"], false⟩),
    (["assets", "current_assets", "1100_accounts_receivable"],
      ⟨["1100", "Accounts", "Receivable"], false⟩),
    (["assets", "current_assets", "1200_work_in_process"],
      ⟨["1200", "Work", "in", "Process"], false⟩),
    (["assets", "current_assets", "other_current_assets", "1310_prepaid_rent"],
      ⟨["1310", "Prepaid", "Rent"], false⟩),
    (["assets", "current_assets", "other_current_assets", "1320_prepaid_liability_insurance"],
      ⟨["1320", "Prepaid", "Liability", "Insurance"], false⟩),
    (["assets", "current_assets", "other_current_assets", "total_other_current_assets"],
      ⟨["Total", "Other", "Current", "Assets"], false⟩),
    (["assets", "current_assets", "total_current_assets"],
      ⟨["Total", "Current", "Assets"], false⟩),
    (["assets", "non_current_assets", "1400_net_computer_equipment"],
      ⟨["1400", "Net", "Computer", "Equipment"], false⟩),
    (["assets", "non_current_assets", "1500_net_furniture_fixtures_equipment"],
      ⟨["1500", "Net", "Furniture,", "Fixtures,", "&", "Equipment"], false⟩),
    (["assets", "non_current_assets", "1600_net_field_equipment"],
      ⟨["1600", "Net", "Field", "Equipment"], false⟩),
    (["assets", "non_current_assets", "1700_net_real_estate"],
      ⟨["1700", "Net", "Real", "Estate"], false⟩),
    (["assets", "non_current_assets", "1800_net_leasehold_improvements"],
      ⟨["1800", "Net", "Leasehold", "Improvements"], false⟩),
    (["assets", "non_current_assets", "1900_other_assets"],
      ⟨["1900", "Other", "Assets"], false⟩),
    (["assets", "non_current_assets", "total_non_current_assets"],
      ⟨["Total", "Non-Current", "Assets"], false⟩),
    (["assets", "total_assets"], ⟨["Total", "Assets"], false⟩),
    (["liabilities", "current_liabilities", "2000_accounts_payable"],
      ⟨["2000", "Accounts", "Payable"], false⟩),
    (["liabilities", "current_liabilities", "2100_deferred_taxes"],
      ⟨["2100", "Deferred", "Taxes"], false⟩),
    (["liabilities", "current_liabilities", "2200_line_of_credit_borrowing"],
      ⟨["2200", "Line", "of", "Credit", "Borrowing"], false⟩),
    (["liabilities", "current_liabilities", "2300_current_portion_long_term_debt"],
      ⟨["2300", "Current", "Portion", "of", "Long-Term", "Debt"], false⟩),
    (["liabilities", "current_liabilities", "2400_other_current_liabilities"],
      ⟨["2400", "Other", "Current", "Liabilities"], false⟩),
    (["liabilities", "current_liabilities", "total_current_liabilities"],
      ⟨["Total", "Current", "Liabilities"], false⟩),
    (["liabilities", "non_current_liabilities", "2500_long_term_debt"],
      ⟨["2500", "Long-Term", "Debt"], false⟩),
    (["liabilities", "non_current_liabilities", "2600_other_liabilities"],
      ⟨["2600", "Other", "Liabilities"], false⟩),
    (["liabilities", "non_current_liabilities", "total_non_current_liabilities"],
      ⟨["Total", "Non-Current", "Liabilities"], false⟩),
    (["liabilities", "total_liabilities"], ⟨["Total", "Liabilities"], false⟩),
    (["equity", "3000_capital_stock"], ⟨["3000", "Capital", "Stock"], false⟩) ]

/-- The treasury-stock locator (line 184): parenthesized capture. -/
def treasuryPat : Pat := ⟨["3100", "Treasury", "Stock"], true⟩

def treasuryPath : List String := ["equity", "3100_treasury_stock"]

/-- Locator table, part 2: the unconditional assignments after the
treasury-stock special case (lines 191-202), in source order. -/
def tableB : List (List String × Pat) :=
  [ (["equity", "3200_retained_earnings"], ⟨["3200", "Retained", "Earnings"], false⟩),
    (["equity", "total_equity"], ⟨["Total", "Equity"], false⟩),
    (["total_liabilities_and_equity"], ⟨["Total", "Liabilities", "and", "Equity"], false⟩) ]

/-- The assignment sequence executed by `populate_balance_sheet`, in
source order.  The company/report-date assignments happen only when
their searches match; the treasury-stock leaf is assigned only when its
pattern matches, and its value is the explicitly negated capture. -/
def assignments (text : String) : List (List String × Leaf) :=
  (match companySearch text.toList with
   | some g => [(["company_name"], Leaf.str (String.mk (pyStrip g)))]
   | Option.none => [])
  ++ (match dateSearch text.toList with
   | some g => [(["report_date"], Leaf.str (String.mk (pyStrip g)))]
   | Option.none => [])
  ++ tableA.map (fun e => (e.1, Leaf.num (extract_value_from_text text e.2)))
  ++ (match searchPat treasuryPat text.toList with
   | some g => [(treasuryPath, Leaf.num (-(clean_number (some (String.mk g)))))]
   | Option.none => [])
  ++ tableB.map (fun e => (e.1, Leaf.num (extract_value_from_text text e.2)))

/-- One assignment step of the populator. -/
def popStep (acc : Option PyVal) (e : List String × Leaf) : Option PyVal :=
  acc.bind fun t => setPath t e.1 e.2.toVal

/-- populater.py `populate_balance_sheet(text_content, template)`,
modelled on the returned value (Python-level aliasing of the shallow
copy is modelled separately by the heap semantics below). -/
def populate_balance_sheet (text : String) (template : PyVal) : Option PyVal :=
  (assignments text).foldl popStep (some template)

/-! ### Balance Validator (validator.py, `validate_balance_sheet`) -/

structure VReport where
  total_assets : ℚ
  total_liabilities : ℚ
  total_equity : ℚ
  calculated_total : ℚ
  stated_total : ℚ
  balance_difference : ℚ
  stated_difference : ℚ
  is_balanced : Bool
  matches_stated : Bool

/-- Model of `populated_data.get(sec, {}).get(fld, 0)`: a missing section or a
missing field defaults to 0; a non-dict section value or a non-numeric
present field makes the validator raise (TypeError/AttributeError),
modelled as `Option.none`. -/
def getAgg (es : Entries) (sec fld : String) : Option ℚ :=
  match entGet es sec with
  | Option.none => some 0
  | some (.dict s) =>
    match entGet s fld with
    | Option.none => some 0
    | some (.num q) => some q
    | some _ => Option.none
  | some _ => Option.none

/-- Model of `populated_data.get(k, 0)` for the top-level stated total. -/
def getTop (es : Entries) (k : String) : Option ℚ :=
  match entGet es k with
  | Option.none => some 0
  | some (.num q) => some q
  | some _ => Option.none

/-- validator.py `validate_balance_sheet(populated_data)`. -/
def validate_balance_sheet (v : PyVal) : Option VReport :=
  match v with
  | .dict es =>
    (getAgg es "assets" "total_assets").bind fun ta =>
    (getAgg es "liabilities" "total_liabilities").bind fun tl =>
    (getAgg es "equity" "total_equity").bind fun te =>
    (getTop es "total_liabilities_and_equity").map fun tle =>
      let ct := tl + te
      let bd := |ta - ct|
      let sd := |ta - tle|
      ⟨ta, tl, te, ct, tle, bd, sd, decide (bd < 1), decide (sd < 1)⟩
  | _ => Option.none

/-! ### Coverage Analyzer (validator.py, `count_extracted_fields`) -/

def excludedKeys : List String := ["company_name", "report_date", "report_title"]

mutual
/-- The recursive `count_fields` worker of `count_extracted_fields`:
returns (extracted count, total count, missing-field paths in traversal
order). -/
def countVal : PyVal → String → ℕ × ℕ × List String
  | .dict es, pfx => countEntries es pfx
  | _, _ => (0, 0, [])
def countEntries : Entries → String → ℕ × ℕ × List String
  | .nil, _ => (0, 0, [])
  | .cons k v rest, pfx =>
    if k ∈ excludedKeys then countEntries rest pfx
    else
      let path := if pfx = "" then k else pfx ++ "." ++ k
      match v with
      | .num q =>
        let r := countEntries rest pfx
        if q ≠ 0 then (r.1 + 1, r.2.1 + 1, r.2.2) else (r.1, r.2.1 + 1, path :: r.2.2)
      | .dict _ =>
        let a := countVal v path
        let r := countEntries rest pfx
        (a.1 + r.1, a.2.1 + r.2.1, a.2.2 ++ r.2.2)
      | _ => countEntries rest pfx
end

structure CoverageReport where
  extracted_fields : ℕ
  total_fields : ℕ
  extraction_rate : ℚ
  missing_fields : List String

/-- validator.py `count_extracted_fields(populated_data)`. -/
def count_extracted_fields (v : PyVal) : CoverageReport :=
  let r := countVal v ""
  { extracted_fields := r.1
    total_fields := r.2.1
    extraction_rate := if r.2.1 > 0 then (r.1 : ℚ) / (r.2.1 : ℚ) * 100 else 0
    missing_fields := r.2.2 }

/-! ### The template schema

Modelled from the spec: `template.json` is not under `src/`; its shape
is fully determined by the chained lookups of `populate_balance_sheet`,
and per the spec's data-model section its numeric leaves start at 0 and
its header fields are free-text (empty by default, plus a
`report_title` header which the Coverage Analyzer's exclusion list
shows to exist). -/

def entriesOf : List (String × PyVal) → Entries
  | [] => .nil
  | (k, v) :: rest => .cons k v (entriesOf rest)

def templateJson : PyVal :=
  .dict (entriesOf
    [ ("company_name", .str ""),
      ("report_date", .str ""),
      ("report_title", .str "Balance Sheet"),
      ("assets", .dict (entriesOf
        [ ("current_assets", .dict (entriesOf
            [ ("cash", .dict (entriesOf
                [ ("1010_checking", .num 0),
                  ("1020_savings", .num 0),
                  ("1030_petty_cash", .num 0),
                  ("total_cash", .num 0) ])),
              ("1100_accounts_receivable", .num 0),
              ("1200_work_in_process", .num 0),
              ("other_current_assets", .dict (entriesOf
                [ ("1310_prepaid_rent", .num 0),
                  ("1320_prepaid_liability_insurance", .num 0),
                  ("total_other_current_assets", .num 0) ])),
              ("total_current_assets", .num 0) ])),
          ("non_current_assets", .dict (entriesOf
            [ ("1400_net_computer_equipment", .num 0),
              ("1500_net_furniture_fixtures_equipment", .num 0),
              ("1600_net_field_equipment", .num 0),
              ("1700_net_real_estate", .num 0),
              ("1800_net_leasehold_improvements", .num 0),
              ("1900_other_assets", .num 0),
              ("total_non_current_assets", .num 0) ])),
          ("total_assets", .num 0) ])),
      ("liabilities", .dict (entriesOf
        [ ("current_liabilities", .dict (entriesOf
            [ ("2000_accounts_payable", .num 0),
              ("2100_deferred_taxes", .num 0),
              ("2200_line_of_credit_borrowing", .num 0),
              ("2300_current_portion_long_term_debt", .num 0),
              ("2400_other_current_liabilities", .num 0),
              ("total_current_liabilities", .num 0) ])),
          ("non_current_liabilities", .dict (entriesOf
            [ ("2500_long_term_debt", .num 0),
              ("2600_other_liabilities", .num 0),
              ("total_non_current_liabilities", .num 0) ])),
          ("total_liabilities", .num 0) ])),
      ("equity", .dict (entriesOf
        [ ("3000_capital_stock", .num 0),
          ("3100_treasury_stock", .num 0),
          ("3200_retained_earnings", .num 0),
          ("total_equity", .num 0) ])),
      ("total_liabilities_and_equity", .num 0) ])

mutual
/-- Is every numeric leaf (at any depth) equal to 0? -/
def numAllZero : PyVal → Bool
  | .num q => decide (q = 0)
  | .dict es => entsAllZero es
  | _ => true
def entsAllZero : Entries → Bool
  | .nil => true
  | .cons _ v rest => numAllZero v && entsAllZero rest
end

/-! ### Heap semantics of `populate_balance_sheet`

The functional model above describes the dict value the function
returns.  To reason about what happens to the *caller's* template
object, this section models Python's object identity: dicts live at
addresses, a dict's values may be references to other dicts, and
`template.copy()` (populater.py line 48) allocates a fresh top-level
dict that shares the references to all nested dicts (a shallow copy).
Each chained assignment then walks references — through objects shared
with the caller's template — and mutates the final dict in place. -/

abbrev Addr := ℕ

inductive HVal where
  | num (q : ℚ)
  | str (s : String)
  | ref (a : Addr)
deriving DecidableEq

/-- The object store: dict contents by address, plus the next fresh
address. -/
structure Heap where
  objs : List (Addr × List (String × HVal))
  next : Addr
deriving DecidableEq

def heapGet (h : Heap) (a : Addr) : Option (List (String × HVal)) :=
  (h.objs.find? (fun e => e.1 == a)).map (fun e => e.2)

def entGetH : List (String × HVal) → String → Option HVal
  | [], _ => Option.none
  | (k, v) :: rest, key => if k = key then some v else entGetH rest key

def entSetH : List (String × HVal) → String → HVal → List (String × HVal)
  | [], key, v => [(key, v)]
  | (k, w) :: rest, key, v =>
    if k = key then (k, v) :: rest else (k, w) :: entSetH rest key v

/-- Overwrite the dict stored at an (existing) address. -/
def heapSet (h : Heap) (a : Addr) (es : List (String × HVal)) : Heap :=
  ⟨h.objs.map (fun e => if e.1 == a then (a, es) else e), h.next⟩

/-- A chained assignment `obj[k₁][k₂]…[kₙ] = v` starting from the dict
at address `a`: intermediate keys must exist and hold dict references;
the final dict — wherever it lives, shared or not — is mutated. -/
def setPathH : Heap → Addr → List String → HVal → Option Heap
  | h, a, [k], v => (heapGet h a).map fun es => heapSet h a (entSetH es k v)
  | h, a, k :: k' :: rest, v =>
    (heapGet h a).bind fun es =>
      match entGetH es k with
      | some (HVal.ref b) => setPathH h b (k' :: rest) v
      | _ => Option.none
  | _, _, [], _ => Option.none

/-- Chained lookups from an address. -/
def readPathH : Heap → Addr → List String → Option HVal
  | h, a, [k] => (heapGet h a).bind fun es => entGetH es k
  | h, a, k :: k' :: rest =>
    (heapGet h a).bind fun es =>
      match entGetH es k with
      | some (HVal.ref b) => readPathH h b (k' :: rest)
      | _ => Option.none
  | _, _, [] => Option.none

/-- Shallow copy `template.copy()`: allocate a fresh dict with the same entry list —
the nested dict references are shared, not duplicated. -/
def copyTop (h : Heap) (a : Addr) : Option (Heap × Addr) :=
  (heapGet h a).map fun es => (⟨h.objs ++ [(h.next, es)], h.next + 1⟩, h.next)

def leafH : Leaf → HVal
  | .num q => .num q
  | .str s => .str s

/-- Heap-level `populate_balance_sheet`: shallow-copy the
template, then run the same assignment sequence against the copy. -/
def populateHeap (text : String) (h : Heap) (tmpl : Addr) : Option (Heap × Addr) :=
  (copyTop h tmpl).bind fun hp =>
    ((assignments text).foldl
      (fun acc e => acc.bind fun hh => setPathH hh hp.2 e.1 (leafH e.2)) (some hp.1)).map
      fun h2 => (h2, hp.2)

/-- A concrete caller-side template heap with the standard schema shape:
the template dict is at address 0, nested section dicts at addresses
1-9, and one distinguishable nonzero leaf (`assets.total_assets = 5`). -/
def heapTemplate0 : Heap :=
  ⟨[ (0, [ ("company_name", .str ""),
           ("report_date", .str ""),
           ("report_title", .str "Balance Sheet"),
           ("assets", .ref 1),
           ("liabilities", .ref 5),
           ("equity", .ref 8),
           ("total_liabilities_and_equity", .num 0) ]),
     (1, [ ("current_assets", .ref 2),
           ("non_current_assets", .ref 4),
           ("total_assets", .num 5) ]),
     (2, [ ("cash", .ref 3),
           ("1100_accounts_receivable", .num 0),
           ("1200_work_in_process", .num 0),
           ("other_current_assets", .ref 9),
           ("total_current_assets", .num 0) ]),
     (3, [ ("1010_checking", .num 0),
           ("1020_savings", .num 0),
           ("1030_petty_cash", .num 0),
           ("total_cash", .num 0) ]),
     (4, [ ("1400_net_computer_equipment", .num 0),
           ("1500_net_furniture_fixtures_equipment", .num 0),
           ("1600_net_field_equipment", .num 0),
           ("1700_net_real_estate", .num 0),
           ("1800_net_leasehold_improvements", .num 0),
           ("1900_other_assets", .num 0),
           ("total_non_current_assets", .num 0) ]),
     (5, [ ("current_liabilities", .ref 6),
           ("non_current_liabilities", .ref 7),
           ("total_liabilities", .num 0) ]),
     (6, [ ("2000_accounts_payable", .num 0),
           ("2100_deferred_taxes", .num 0),
           ("2200_line_of_credit_borrowing", .num 0),
           ("2300_current_portion_long_term_debt", .num 0),
           ("2400_other_current_liabilities", .num 0),
           ("total_current_liabilities", .num 0) ]),
     (7, [ ("2500_long_term_debt", .num 0),
           ("2600_other_liabilities", .num 0),
           ("total_non_current_liabilities", .num 0) ]),
     (8, [ ("3000_capital_stock", .num 0),
           ("3100_treasury_stock", .num 0),
           ("3200_retained_earnings", .num 0),
           ("total_equity", .num 0) ]),
     (9, [ ("1310_prepaid_rent", .num 0),
           ("1320_prepaid_liability_insurance", .num 0),
           ("total_other_current_assets", .num 0) ]) ],
   10⟩

/-! ### Auxiliary definitions used by the statements and proofs -/

/-- Two key paths diverge when they disagree at some position that both
of them have; assignments to divergent paths cannot interfere. -/
def divergentB : List String → List String → Bool
  | a :: p, b :: q => if a = b then divergentB p q else true
  | _, _ => false

/-- Every path the populator ever assigns, in source order. -/
def allPaths : List (List String) :=
  [["company_name"]] ++ [["report_date"]] ++ tableA.map Prod.fst
    ++ [treasuryPath] ++ tableB.map Prod.fst

/-- Every path the populator assigns when the treasury pattern does not
match. -/
def allPathsNoT : List (List String) :=
  [["company_name"]] ++ [["report_date"]] ++ tableA.map Prod.fst ++ tableB.map Prod.fst

/-- Least-significant-first decimal digits of a natural number (fuel
form; the fuel is the number itself, which suffices). -/
def toRevDigitsAux : ℕ → ℕ → List ℕ
  | 0, _ => []
  | _, 0 => []
  | fuel + 1, n + 1 => ((n + 1) % 10) :: toRevDigitsAux fuel ((n + 1) / 10)

def toRevDigits (n : ℕ) : List ℕ := toRevDigitsAux n n

/-- Value of a least-significant-first digit list. -/
def ofRevDigits (l : List ℕ) : ℕ := l.foldr (fun d a => 10 * a + d) 0

def digitChar (d : ℕ) : Char := Char.ofNat (48 + d)

/-- Insert a thousands separator after every three characters of a
least-significant-first digit list. -/
def sep3 : List Char → List Char
  | [] => []
  | [a] => [a]
  | [a, b] => [a, b]
  | [a, b, c] => [a, b, c]
  | a :: b :: c :: d :: tail => a :: b :: c :: ',' :: sep3 (d :: tail)

/-- The thousands-separated decimal representation of `n`
(e.g. `1250000 ↦ "1,250,000"`). -/
def thousandsRep (n : ℕ) : String :=
  if n = 0 then "0" else String.mk ((sep3 ((toRevDigits n).map digitChar)).reverse)

/-- Scenario D text (spec §8): stated totals only, no breakdown. -/
def scenarioDText : String := "Total Assets 100\nTotal Liabilities and Equity 50"

/-- A text containing the Scenario B substring after an earlier,
different treasury-stock line. -/
def treasuryCexText : String := "3100 Treasury Stock (7) 3100 Treasury Stock (500,000)"

/-- The Scenario B text itself. -/
def treasuryText : String := "3100 Treasury Stock (500,000)"

/-- A populated schema whose only stated aggregate is
`assets.total_assets = 0.99`. -/
def c1BalancedEntries : Entries :=
  entriesOf [("assets", .dict (entriesOf [("total_assets", .num (99 / 100))]))]

/-- A populated schema whose only stated aggregate is
`assets.total_assets = 1.01`. -/
def c1UnbalancedEntries : Entries :=
  entriesOf [("assets", .dict (entriesOf [("total_assets", .num (101 / 100))]))]

/-! ## Lemmas and claim theorems -/

lemma getAgg_none_sec (es : Entries) (sec fld : String)
    (h : entGet es sec = Option.none) : getAgg es sec fld = some 0 := by
  simp [getAgg, h]

lemma getAgg_none_fld (es s : Entries) (sec fld : String)
    (h1 : entGet es sec = some (.dict s)) (h2 : entGet s fld = Option.none) :
    getAgg es sec fld = some 0 := by
  simp [getAgg, h1, h2]

/-- What `validate_balance_sheet` computes, field by field. -/
lemma validate_spec (es : Entries) (r : VReport)
    (h : validate_balance_sheet (.dict es) = some r) :
    getAgg es "assets" "total_assets" = some r.total_assets ∧
    getAgg es "liabilities" "total_liabilities" = some r.total_liabilities ∧
    getAgg es "equity" "total_equity" = some r.total_equity ∧
    getTop es "total_liabilities_and_equity" = some r.stated_total ∧
    r.calculated_total = r.total_liabilities + r.total_equity ∧
    r.balance_difference = |r.total_assets - r.calculated_total| ∧
    r.stated_difference = |r.total_assets - r.stated_total| ∧
    r.is_balanced = decide (r.balance_difference < 1) ∧
    r.matches_stated = decide (r.stated_difference < 1) := by
  cases hta : getAgg es "assets" "total_assets" with
  | none => simp [validate_balance_sheet, hta] at h
  | some ta =>
    cases htl : getAgg es "liabilities" "total_liabilities" with
    | none => simp [validate_balance_sheet, hta, htl] at h
    | some tl =>
      cases hte : getAgg es "equity" "total_equity" with
      | none => simp [validate_balance_sheet, hta, htl, hte] at h
      | some te =>
        cases htle : getTop es "total_liabilities_and_equity" with
        | none => simp [validate_balance_sheet, hta, htl, hte, htle] at h
        | some tle =>
          simp [validate_balance_sheet, hta, htl, hte, htle] at h
          subst h
          exact ⟨rfl, rfl, rfl, rfl, rfl, rfl, rfl, rfl, rfl⟩

/-- C1: for every populated schema the Balance Validator accepts,
`is_balanced` holds iff `|total_assets − (total_liabilities +
total_equity)| < 1.0`, and each of the three aggregates that is missing
from the schema is taken as 0. -/
theorem balance_iff_within_tolerance (es : Entries) (r : VReport)
    (h : validate_balance_sheet (.dict es) = some r) :
    (r.is_balanced = true ↔
      |r.total_assets - (r.total_liabilities + r.total_equity)| < 1) ∧
    (entGet es "assets" = Option.none → r.total_assets = 0) ∧
    (∀ s, entGet es "assets" = some (.dict s) → entGet s "total_assets" = Option.none →
      r.total_assets = 0) ∧
    (entGet es "liabilities" = Option.none → r.total_liabilities = 0) ∧
    (∀ s, entGet es "liabilities" = some (.dict s) →
      entGet s "total_liabilities" = Option.none → r.total_liabilities = 0) ∧
    (entGet es "equity" = Option.none → r.total_equity = 0) ∧
    (∀ s, entGet es "equity" = some (.dict s) → entGet s "total_equity" = Option.none →
      r.total_equity = 0) := by
  obtain ⟨hta, htl, hte, _, hct, hbd, _, hib, _⟩ := validate_spec es r h
  refine ⟨?_, ?_, ?_, ?_, ?_, ?_, ?_⟩
  · rw [hib, hbd, hct]; simp [decide_eq_true_eq]
  · intro hn; rw [getAgg_none_sec es _ _ hn] at hta; exact (Option.some.inj hta).symm
  · intro s h1 h2; rw [getAgg_none_fld es s _ _ h1 h2] at hta; exact (Option.some.inj hta).symm
  · intro hn; rw [getAgg_none_sec es _ _ hn] at htl; exact (Option.some.inj htl).symm
  · intro s h1 h2; rw [getAgg_none_fld es s _ _ h1 h2] at htl; exact (Option.some.inj htl).symm
  · intro hn; rw [getAgg_none_sec es _ _ hn] at hte; exact (Option.some.inj hte).symm
  · intro s h1 h2; rw [getAgg_none_fld es s _ _ h1 h2] at hte; exact (Option.some.inj hte).symm

/-- Witness for C1, straddling the tolerance boundary: a lone
`total_assets = 0.99` is balanced, `1.01` is not. -/
theorem balance_iff_within_tolerance_witness :
    ∃ r₁ r₂ : VReport,
      validate_balance_sheet (.dict c1BalancedEntries) = some r₁ ∧
      validate_balance_sheet (.dict c1UnbalancedEntries) = some r₂ ∧
      (r₁.is_balanced = true ↔
        |r₁.total_assets - (r₁.total_liabilities + r₁.total_equity)| < 1) ∧
      r₁.total_liabilities = 0 ∧ r₁.total_equity = 0 ∧
      r₁.is_balanced = true ∧ r₂.is_balanced = false := by
  refine ⟨_, _, rfl, rfl,
    (balance_iff_within_tolerance c1BalancedEntries _ rfl).1,
    (balance_iff_within_tolerance c1BalancedEntries _ rfl).2.2.2.1 rfl,
    (balance_iff_within_tolerance c1BalancedEntries _ rfl).2.2.2.2.2.1 rfl, ?_, ?_⟩
  · show decide (|(99 / 100 : ℚ) - (0 + 0)| < 1) = true
    rw [decide_eq_true_eq, abs_lt]
    constructor <;> norm_num
  · show decide (|(101 / 100 : ℚ) - (0 + 0)| < 1) = false
    rw [decide_eq_false_iff_not, abs_lt]
    rintro ⟨-, h⟩
    norm_num at h

/-- C4: no match yields `0`; a cleaned literal that fails to parse as a
float yields `0`; absent/empty input to the Normalizer yields `0`. -/
theorem absence_and_parse_failure_default_zero :
    (∀ (text : String) (pat : Pat),
      searchPat pat text.toList = Option.none → extract_value_from_text text pat = 0) ∧
    (∀ cs : List Char,
      pyFloat (parenAdjust (stripCommaWS cs)) = Option.none → clean_number_chars cs = 0) ∧
    clean_number Option.none = 0 ∧ clean_number (some "") = 0 := by
  refine ⟨?_, ?_, rfl, rfl⟩
  · intro text pat h
    unfold extract_value_from_text
    rw [h]
  · intro cs h
    by_cases he : cs.isEmpty
    · simp [clean_number_chars, he]
    · simp [clean_number_chars, he, h]

/-- Witness for C4: a pattern with no match in `"abc"`, and the
unparseable literal `"12a4"`. -/
theorem absence_and_parse_failure_default_zero_witness :
    extract_value_from_text "abc" ⟨["1010", "Checking"], false⟩ = 0 ∧
    clean_number_chars "12a4".toList = 0 :=
  ⟨absence_and_parse_failure_default_zero.1 "abc" ⟨["1010", "Checking"], false⟩ (by decide),
   absence_and_parse_failure_default_zero.2.1 "12a4".toList (by decide)⟩

/-! ### Dict and path-assignment lemmas -/

lemma divergentB_nil_right : ∀ p : List String, divergentB p [] = false := by
  intro p; cases p <;> rfl

lemma divergentB_cons_same (a : String) (p q : List String) :
    divergentB (a :: p) (a :: q) = divergentB p q := by
  simp [divergentB]

lemma entGet_entSet_same : ∀ (es : Entries) (k : String) (v : PyVal),
    entGet (entSet es k v) k = some v
  | .nil, k, v => by simp [entSet, entGet]
  | .cons kk w rest, k, v => by
    by_cases h : kk = k
    · subst h; simp [entSet, entGet]
    · simp [entSet, entGet, h, entGet_entSet_same rest k v]

lemma entGet_entSet_other : ∀ (es : Entries) (k q : String) (v : PyVal), q ≠ k →
    entGet (entSet es k v) q = entGet es q
  | .nil, k, q, v, h => by simp [entSet, entGet, Ne.symm h]
  | .cons kk w rest, k, q, v, h => by
    by_cases hk : kk = k
    · subst hk; simp [entSet, entGet, Ne.symm h]
    · by_cases hq : kk = q
      · subst hq; simp [entSet, entGet, hk]
      · simp [entSet, entGet, hk, hq, entGet_entSet_other rest k q v h]

lemma setPath_get_same : ∀ (q : List String) (t t' x : PyVal),
    setPath t q x = some t' → getPath t' q = some x := by
  intro q
  induction q with
  | nil => intro t t' x h; cases t <;> exact Option.noConfusion h
  | cons k qs ih =>
    intro t t' x h
    cases qs with
    | nil =>
      cases t with
      | dict es =>
        simp only [setPath, Option.some.injEq] at h
        subst h
        simp [getPath, entGet_entSet_same]
      | num q => exact Option.noConfusion h
      | str s => exact Option.noConfusion h
      | vnone => exact Option.noConfusion h
      | listv xs => exact Option.noConfusion h
    | cons k2 qrest =>
      cases t with
      | dict es =>
        cases hg : entGet es k with
        | none => simp [setPath, hg] at h
        | some sub =>
          simp only [setPath, hg] at h
          cases hs : setPath sub (k2 :: qrest) x with
          | none => rw [hs] at h; simp at h
          | some sub2 =>
            rw [hs] at h
            simp only [Option.map_some', Option.some.injEq] at h
            subst h
            simp only [getPath, entGet_entSet_same, Option.some_bind]
            exact ih sub sub2 x hs
      | num q => exact Option.noConfusion h
      | str s => exact Option.noConfusion h
      | vnone => exact Option.noConfusion h
      | listv xs => exact Option.noConfusion h

lemma setPath_get_divergent : ∀ (q p : List String) (t t' x : PyVal),
    divergentB p q = true → setPath t q x = some t' → getPath t' p = getPath t p := by
  intro q
  induction q with
  | nil =>
    intro p t t' x hd h
    rw [divergentB_nil_right] at hd
    exact Bool.noConfusion hd
  | cons k qs ih =>
    intro p t t' x hd h
    cases p with
    | nil => exact Bool.noConfusion hd
    | cons a ps =>
      cases t with
      | dict es =>
        cases qs with
        | nil =>
          simp only [setPath, Option.some.injEq] at h
          subst h
          by_cases hak : a = k
          · subst hak
            rw [divergentB_cons_same, divergentB_nil_right] at hd
            exact Bool.noConfusion hd
          · simp [getPath, entGet_entSet_other es k a x hak]
        | cons k2 qrest =>
          cases hg : entGet es k with
          | none => simp [setPath, hg] at h
          | some sub =>
            simp only [setPath, hg] at h
            cases hs : setPath sub (k2 :: qrest) x with
            | none => rw [hs] at h; simp at h
            | some sub2 =>
              rw [hs] at h
              simp only [Option.map_some', Option.some.injEq] at h
              subst h
              by_cases hak : a = k
              · subst hak
                rw [divergentB_cons_same] at hd
                simp only [getPath, entGet_entSet_same, hg, Option.some_bind]
                exact ih ps sub sub2 x hd hs
              · simp [getPath, entGet_entSet_other es k a sub2 hak]
      | num q => exact Option.noConfusion h
      | str s => exact Option.noConfusion h
      | vnone => exact Option.noConfusion h
      | listv xs => exact Option.noConfusion h

lemma foldl_popStep_none : ∀ (l : List (List String × Leaf)),
    l.foldl popStep Option.none = Option.none
  | [] => rfl
  | _ :: l => foldl_popStep_none l

lemma foldl_preserve : ∀ (l : List (List String × Leaf)) (t r : PyVal) (tgt : List String),
    (∀ e ∈ l, divergentB tgt e.1 = true) →
    l.foldl popStep (some t) = some r → getPath r tgt = getPath t tgt := by
  intro l
  induction l with
  | nil =>
    intro t r tgt _ h
    cases Option.some.inj h
    rfl
  | cons e l ih =>
    intro t r tgt hdiv h
    rw [List.foldl_cons] at h
    cases hstep : setPath t e.1 e.2.toVal with
    | none =>
      rw [show popStep (some t) e = Option.none from by simp [popStep, hstep]] at h
      rw [foldl_popStep_none] at h
      exact absurd h (by simp)
    | some t1 =>
      rw [show popStep (some t) e = some t1 from by simp [popStep, hstep]] at h
      rw [ih t1 r tgt (fun x hx => hdiv x (List.mem_cons_of_mem e hx)) h]
      exact setPath_get_divergent e.1 tgt t t1 e.2.toVal (hdiv e (List.mem_cons_self e l)) hstep

lemma foldl_assigned : ∀ (l : List (List String × Leaf)) (t r : PyVal),
    l.Pairwise (fun a b => divergentB a.1 b.1 = true) →
    l.foldl popStep (some t) = some r →
    ∀ e ∈ l, getPath r e.1 = some e.2.toVal := by
  intro l
  induction l with
  | nil => intro t r _ _ e he; simp at he
  | cons a l ih =>
    intro t r hp h e he
    rw [List.foldl_cons] at h
    cases hstep : setPath t a.1 a.2.toVal with
    | none =>
      rw [show popStep (some t) a = Option.none from by simp [popStep, hstep]] at h
      rw [foldl_popStep_none] at h
      exact absurd h (by simp)
    | some t1 =>
      rw [show popStep (some t) a = some t1 from by simp [popStep, hstep]] at h
      rcases List.mem_cons.mp he with rfl | hmem
      · have hall : ∀ x ∈ l, divergentB e.1 x.1 = true :=
          fun x hx => (List.pairwise_cons.mp hp).1 x hx
        rw [foldl_preserve l t1 r e.1 hall h]
        exact setPath_get_same e.1 t t1 e.2.toVal hstep
      · exact ih t1 r (List.pairwise_cons.mp hp).2 h e hmem

/-! ### The populator's assignment paths are pairwise non-interfering -/

lemma allPaths_pairwise : allPaths.Pairwise (fun a b => divergentB a b = true) := by
  decide

lemma allPathsNoT_divergent : ∀ x ∈ allPathsNoT, divergentB treasuryPath x = true := by
  decide

lemma gen_sublist (text : String) (c d t : List (List String × Leaf))
    (hc : List.Sublist (c.map Prod.fst) [["company_name"]])
    (hd : List.Sublist (d.map Prod.fst) [["report_date"]])
    (ht : List.Sublist (t.map Prod.fst) [treasuryPath]) :
    List.Sublist
      ((c ++ d
        ++ tableA.map (fun e => (e.1, Leaf.num (extract_value_from_text text e.2)))
        ++ t
        ++ tableB.map (fun e => (e.1, Leaf.num (extract_value_from_text text e.2)))).map
      Prod.fst) allPaths := by
  simp only [List.map_append]
  exact List.Sublist.append
    (List.Sublist.append
      (List.Sublist.append (List.Sublist.append hc hd) (List.Sublist.refl _)) ht)
    (List.Sublist.refl _)

lemma gen_sublist_noT (text : String) (c d : List (List String × Leaf))
    (hc : List.Sublist (c.map Prod.fst) [["company_name"]])
    (hd : List.Sublist (d.map Prod.fst) [["report_date"]]) :
    List.Sublist
      ((c ++ d
        ++ tableA.map (fun e => (e.1, Leaf.num (extract_value_from_text text e.2)))
        ++ ([] : List (List String × Leaf))
        ++ tableB.map (fun e => (e.1, Leaf.num (extract_value_from_text text e.2)))).map
      Prod.fst) allPathsNoT := by
  simp only [List.map_append, List.map_nil, List.append_nil]
  exact List.Sublist.append
    (List.Sublist.append (List.Sublist.append hc hd) (List.Sublist.refl _))
    (List.Sublist.refl _)

lemma company_part_sublist (text : String) :
    List.Sublist ((match companySearch text.toList with
      | some g => [(["company_name"], Leaf.str (String.mk (pyStrip g)))]
      | Option.none => ([] : List (List String × Leaf))).map Prod.fst)
      [["company_name"]] := by
  cases companySearch text.toList with
  | none => exact List.nil_sublist _
  | some g => exact List.Sublist.refl _

lemma date_part_sublist (text : String) :
    List.Sublist ((match dateSearch text.toList with
      | some g => [(["report_date"], Leaf.str (String.mk (pyStrip g)))]
      | Option.none => ([] : List (List String × Leaf))).map Prod.fst)
      [["report_date"]] := by
  cases dateSearch text.toList with
  | none => exact List.nil_sublist _
  | some g => exact List.Sublist.refl _

lemma assignments_paths_sublist (text : String) :
    List.Sublist ((assignments text).map Prod.fst) allPaths := by
  unfold assignments
  refine gen_sublist text _ _ _ (company_part_sublist text) (date_part_sublist text) ?_
  cases searchPat treasuryPat text.toList with
  | none => exact List.nil_sublist _
  | some g => exact List.Sublist.refl _

lemma assignments_paths_sublist_noT (text : String)
    (h : searchPat treasuryPat text.toList = Option.none) :
    List.Sublist ((assignments text).map Prod.fst) allPathsNoT := by
  unfold assignments
  rw [h]
  exact gen_sublist_noT text _ _ (company_part_sublist text) (date_part_sublist text)

lemma assignments_pairwise (text : String) :
    (assignments text).Pairwise (fun a b => divergentB a.1 b.1 = true) :=
  List.pairwise_map.mp (allPaths_pairwise.sublist (assignments_paths_sublist text))

lemma mem_assignments_table (text : String) (e : List String × Pat)
    (he : e ∈ (tableA ++ tableB)) :
    (e.1, Leaf.num (extract_value_from_text text e.2)) ∈ assignments text := by
  unfold assignments
  rcases List.mem_append.mp he with hA | hB
  · exact List.mem_append.mpr (Or.inl (List.mem_append.mpr (Or.inl
      (List.mem_append.mpr (Or.inr (List.mem_map_of_mem _ hA))))))
  · exact List.mem_append.mpr (Or.inr (List.mem_map_of_mem _ hB))

lemma mem_assignments_treasury (text : String) (g : List Char)
    (h : searchPat treasuryPat text.toList = some g) :
    (treasuryPath, Leaf.num (-(clean_number (some (String.mk g))))) ∈ assignments text := by
  unfold assignments
  rw [h]
  exact List.mem_append.mpr (Or.inl (List.mem_append.mpr (Or.inr (List.mem_singleton.mpr rfl))))

/-! ### Claim theorems about the populator -/

/-- C9: when the treasury locator finds no match, the populator leaves
`equity.3100_treasury_stock` at its input value — it is the only
conditionally assigned numeric leaf; every leaf in the locator tables is
unconditionally overwritten with its extraction result. -/
theorem treasury_only_conditional_leaf (text : String) (template p : PyVal)
    (hp : populate_balance_sheet text template = some p) :
    (searchPat treasuryPat text.toList = Option.none →
      getPath p treasuryPath = getPath template treasuryPath) ∧
    (∀ e ∈ (tableA ++ tableB),
      getPath p e.1 = some (.num (extract_value_from_text text e.2))) := by
  constructor
  · intro hn
    refine foldl_preserve (assignments text) template p treasuryPath ?_ hp
    intro e he
    exact allPathsNoT_divergent e.1
      ((assignments_paths_sublist_noT text hn).subset (List.mem_map_of_mem Prod.fst he))
  · intro e he
    exact foldl_assigned (assignments text) template p (assignments_pairwise text) hp
      _ (mem_assignments_table text e he)

/-- Witness for C9 at empty text and the standard template. -/
theorem treasury_only_conditional_leaf_witness :
    ∃ p, populate_balance_sheet "" templateJson = some p ∧
      getPath p treasuryPath = getPath templateJson treasuryPath ∧
      getPath p ["assets", "total_assets"] =
        some (.num (extract_value_from_text "" ⟨["Total", "Assets"], false⟩)) := by
  refine ⟨_, rfl, ?_, ?_⟩
  · exact (treasury_only_conditional_leaf "" templateJson _ rfl).1 rfl
  · exact (treasury_only_conditional_leaf "" templateJson _ rfl).2
      (["assets", "total_assets"], ⟨["Total", "Assets"], false⟩) (by decide)

/-- C5 counterexample: a text that contains the Scenario B substring but
whose *first* treasury match captures `7`, so the populated treasury
field is `-7`, not `-500000`. -/
theorem treasury_substring_claim_false :
    List.IsInfix "3100 Treasury Stock (500,000)".toList treasuryCexText.toList ∧
    ∃ p, populate_balance_sheet treasuryCexText templateJson = some p ∧
      asNum (getPath p treasuryPath) = some (-7) ∧
      asNum (getPath p treasuryPath) ≠ some (-500000) := by
  refine ⟨⟨"3100 Treasury Stock (7) ".toList, [], by decide⟩, _, rfl, by decide, by decide⟩

/-- C5 amended: when the *first* treasury match captures `500,000`, the
populated treasury field is `-500000`; the explicit negation agrees in
sign with the Numeric Normalizer's own parenthesis handling. -/
theorem treasury_first_match_negated (text : String) (template p : PyVal)
    (hs : searchPat treasuryPat text.toList = some "500,000".toList)
    (hp : populate_balance_sheet text template = some p) :
    asNum (getPath p treasuryPath) = some (-500000) ∧
    -(clean_number (some "500,000")) = -500000 ∧
    clean_number (some "(500,000)") = -500000 := by
  refine ⟨?_, by decide, by decide⟩
  have h := foldl_assigned (assignments text) template p (assignments_pairwise text) hp
    _ (mem_assignments_treasury text "500,000".toList hs)
  rw [h]
  decide

/-- Witness for C5 (amended) at the Scenario B text itself. -/
theorem treasury_first_match_negated_witness :
    searchPat treasuryPat treasuryText.toList = some "500,000".toList ∧
    ∃ p, populate_balance_sheet treasuryText templateJson = some p ∧
      asNum (getPath p treasuryPath) = some (-500000) := by
  refine ⟨by decide, _, rfl,
    (treasury_first_match_negated treasuryText templateJson _ (by decide) rfl).1⟩

/-- Arithmetic core of Scenario D: assets 100 against a calculated
total of 0 + 0 is rejected by the strict 1.0 tolerance. -/
lemma decide_balance_false (a l e : ℚ) (ha : a = 100) (hl : l = 0) (he : e = 0) :
    decide (|a - (l + e)| < 1) = false := by
  subst ha; subst hl; subst he
  rw [decide_eq_false_iff_not, abs_lt]
  rintro ⟨-, h⟩
  norm_num at h

lemma add_zeros (l e : ℚ) (hl : l = 0) (he : e = 0) : l + e = 0 := by
  rw [hl, he, add_zero]

lemma abs_sub_hundred (a l e : ℚ) (ha : a = 100) (hl : l = 0) (he : e = 0) :
    |a - (l + e)| = 100 := by
  subst ha; subst hl; subst he
  rw [add_zero, sub_zero]
  exact abs_of_nonneg (by norm_num)

/-- C8 counterexample: on the Scenario D text the literal arithmetic
gives `is_balanced = false`, not `true` as the claim states. -/
theorem scenario_d_claim_false :
    ∃ p r, populate_balance_sheet scenarioDText templateJson = some p ∧
      validate_balance_sheet p = some r ∧ r.is_balanced = false := by
  refine ⟨_, _, rfl, rfl, ?_⟩
  exact decide_balance_false _ _ _ (by decide) (by decide) (by decide)

/-- C8 amended: Scenario D populates `total_assets = 100`, defaults the
two aggregates to 0, reads the stated total 50, and is unbalanced with
`balance_difference = 100`. -/
theorem scenario_d_unbalanced :
    ∃ p r, populate_balance_sheet scenarioDText templateJson = some p ∧
      validate_balance_sheet p = some r ∧
      r.total_assets = 100 ∧ r.total_liabilities = 0 ∧ r.total_equity = 0 ∧
      r.stated_total = 50 ∧ r.calculated_total = 0 ∧ r.balance_difference = 100 ∧
      r.is_balanced = false := by
  refine ⟨_, _, rfl, rfl, by decide, by decide, by decide, by decide, ?_, ?_, ?_⟩
  · exact add_zeros _ _ (by decide) (by decide)
  · exact abs_sub_hundred _ _ _ (by decide) (by decide) (by decide)
  · exact decide_balance_false _ _ _ (by decide) (by decide) (by decide)

/-- The extraction rate is 0 whenever no field was extracted. -/
lemma rate_zero_of_extracted_zero (v : PyVal) (h : (countVal v "").1 = 0) :
    (count_extracted_fields v).extraction_rate = 0 := by
  simp [count_extracted_fields, h]

/-- C7: on empty text every numeric leaf of the populated standard
schema is 0, the coverage report's extraction rate is 0, and every one
of the 33 numeric fields is listed as missing. -/
theorem empty_text_all_leaves_zero :
    ∃ p, populate_balance_sheet "" templateJson = some p ∧
      numAllZero p = true ∧
      (count_extracted_fields p).extraction_rate = 0 ∧
      (count_extracted_fields p).missing_fields.length = (count_extracted_fields p).total_fields ∧
      (count_extracted_fields p).total_fields = 33 := by
  refine ⟨_, rfl, by decide, rate_zero_of_extracted_zero _ (by decide), by decide, by decide⟩

/-- C3: `populated = template.copy()` is a *shallow* copy, so the
chained nested assignments mutate dicts shared with the caller's
template: after populating from empty text the caller's
`assets.total_assets` leaf has changed from 5 to 0, even though the
returned top-level dict (address 10) is a fresh object. -/
theorem shallow_copy_mutates_caller_template :
    readPathH heapTemplate0 0 ["assets", "total_assets"] = some (.num 5) ∧
    ∃ h1 pa, populateHeap "" heapTemplate0 0 = some (h1, pa) ∧ pa ≠ 0 ∧
      readPathH h1 0 ["assets", "total_assets"] = some (.num 0) :=
  ⟨by decide, _, _, rfl, by decide, by decide⟩

/-! ### The Normalizer round-trip (C2) -/

lemma digitChar_props (d : ℕ) (hd : d < 10) :
    isDigitC (digitChar d) = true ∧ (digitChar d).toNat = 48 + d := by
  interval_cases d <;> exact ⟨rfl, rfl⟩

lemma digit_not_special (c : Char) (h : isDigitC c = true) :
    c ≠ '-' ∧ c ≠ '+' ∧ isExpChar c = false ∧ (c != '.') = true ∧
    c ≠ ',' ∧ isPySpace c = false ∧ c ≠ '(' := by
  refine ⟨?_, ?_, ?_, ?_, ?_, ?_, ?_⟩
  · rintro rfl; exact absurd h (by decide)
  · rintro rfl; exact absurd h (by decide)
  · cases hc : isExpChar c with
    | false => rfl
    | true =>
      simp only [isExpChar, Bool.or_eq_true, decide_eq_true_eq] at hc
      rcases hc with rfl | rfl <;> exact absurd h (by decide)
  · by_cases hc : c = '.'
    · subst hc; exact absurd h (by decide)
    · simp [hc]
  · rintro rfl; exact absurd h (by decide)
  · cases hc : isPySpace c with
    | false => rfl
    | true =>
      simp only [isPySpace, Bool.or_eq_true, decide_eq_true_eq] at hc
      rcases hc with ((((rfl | rfl) | rfl) | rfl) | rfl) | rfl <;> exact absurd h (by decide)
  · rintro rfl; exact absurd h (by decide)

lemma toRevDigitsAux_lt : ∀ (fuel n : ℕ), ∀ d ∈ toRevDigitsAux fuel n, d < 10
  | 0, _ => by simp [toRevDigitsAux]
  | _ + 1, 0 => by simp [toRevDigitsAux]
  | fuel + 1, n + 1 => by
    intro d hd
    simp only [toRevDigitsAux, List.mem_cons] at hd
    rcases hd with rfl | hd
    · exact Nat.mod_lt _ (by norm_num)
    · exact toRevDigitsAux_lt fuel ((n + 1) / 10) d hd

lemma toRevDigitsAux_val : ∀ (fuel n : ℕ), n ≤ fuel →
    ofRevDigits (toRevDigitsAux fuel n) = n
  | 0, n, h => by
    have hn : n = 0 := Nat.le_zero.mp h
    subst hn; rfl
  | _ + 1, 0, _ => rfl
  | fuel + 1, n + 1, h => by
    have hdiv : (n + 1) / 10 ≤ fuel := by
      have h1 : (n + 1) / 10 < n + 1 := Nat.div_lt_self (Nat.succ_pos n) (by norm_num)
      omega
    show ofRevDigits (((n + 1) % 10) :: toRevDigitsAux fuel ((n + 1) / 10)) = n + 1
    unfold ofRevDigits
    rw [List.foldr_cons]
    rw [show List.foldr (fun d a => 10 * a + d) 0 (toRevDigitsAux fuel ((n + 1) / 10))
      = ofRevDigits (toRevDigitsAux fuel ((n + 1) / 10)) from rfl]
    rw [toRevDigitsAux_val fuel ((n + 1) / 10) hdiv]
    omega

lemma toRevDigits_lt (n : ℕ) : ∀ d ∈ toRevDigits n, d < 10 := toRevDigitsAux_lt n n

lemma toRevDigits_val (n : ℕ) : ofRevDigits (toRevDigits n) = n :=
  toRevDigitsAux_val n n (le_refl n)

lemma toRevDigits_ne_nil (n : ℕ) (hn : n ≠ 0) : toRevDigits n ≠ [] := by
  cases n with
  | zero => exact absurd rfl hn
  | succ m => simp [toRevDigits, toRevDigitsAux]

lemma foldr_digit_chars : ∀ (l : List ℕ), (∀ d ∈ l, d < 10) →
    List.foldr (fun c a => 10 * a + (c.toNat - 48)) 0 (l.map digitChar) = ofRevDigits l
  | [], _ => rfl
  | d :: l, h => by
    simp only [List.map_cons, List.foldr_cons]
    rw [foldr_digit_chars l (fun x hx => h x (List.mem_cons_of_mem d hx))]
    rw [(digitChar_props d (h d (List.mem_cons_self d l))).2]
    have h48 : 48 + d - 48 = d := by omega
    rw [h48]
    rfl

lemma digitsToNat_rev_map (l : List ℕ) (h : ∀ d ∈ l, d < 10) :
    digitsToNat ((l.map digitChar).reverse) = ofRevDigits l := by
  unfold digitsToNat
  rw [List.foldl_reverse]
  exact foldr_digit_chars l h

lemma sep3_ne_nil : ∀ l : List Char, l ≠ [] → sep3 l ≠ []
  | [], h => absurd rfl h
  | [_], _ => by simp [sep3]
  | [_, _], _ => by simp [sep3]
  | [_, _, _], _ => by simp [sep3]
  | _ :: _ :: _ :: _ :: _, _ => by simp [sep3]

lemma sep3_filter (p : Char → Bool) (hc : p ',' = false) :
    ∀ l : List Char, (∀ c ∈ l, p c = true) → (sep3 l).filter p = l
  | [], _ => rfl
  | [a], h => by
    simp [sep3, List.filter_cons, h a (List.mem_cons_self a [])]
  | [a, b], h => by
    simp [sep3, List.filter_cons, h a (by simp), h b (by simp)]
  | [a, b, c], h => by
    simp [sep3, List.filter_cons, h a (by simp), h b (by simp), h c (by simp)]
  | a :: b :: c :: d :: t, h => by
    have hrec := sep3_filter p hc (d :: t)
      (fun x hx => h x (List.mem_cons_of_mem a (List.mem_cons_of_mem b
        (List.mem_cons_of_mem c hx))))
    simp [sep3, List.filter_cons, h a (by simp), h b (by simp), h c (by simp), hc, hrec]

lemma takeWhile_all (p : Char → Bool) : ∀ l : List Char,
    (∀ c ∈ l, p c = true) → l.takeWhile p = l
  | [], _ => rfl
  | a :: l, h => by
    rw [List.takeWhile_cons, if_pos (h a (List.mem_cons_self a l))]
    rw [takeWhile_all p l (fun x hx => h x (List.mem_cons_of_mem a hx))]

lemma dropWhile_all (p : Char → Bool) : ∀ l : List Char,
    (∀ c ∈ l, p c = true) → l.dropWhile p = []
  | [], _ => rfl
  | a :: l, h => by
    rw [List.dropWhile_cons, if_pos (h a (List.mem_cons_self a l))]
    exact dropWhile_all p l (fun x hx => h x (List.mem_cons_of_mem a hx))

lemma isEmpty_false_of_ne {l : List Char} (h : l ≠ []) : l.isEmpty = false := by
  cases l with
  | nil => exact absurd rfl h
  | cons a t => rfl

lemma parseMantissa_digits (neg : Bool) (l : List Char) (hne : l ≠ [])
    (hd : ∀ c ∈ l, isDigitC c = true) :
    parseMantissa neg l = some (applySign neg ((digitsToNat l : ℕ) : ℚ)) := by
  have hdot : ∀ c ∈ l, (c != '.') = true :=
    fun c hc => (digit_not_special c (hd c hc)).2.2.2.1
  have h1 : l.isEmpty = false := isEmpty_false_of_ne hne
  have h2 : allDigits l = true := List.all_eq_true.mpr hd
  simp only [parseMantissa]
  rw [takeWhile_all _ l hdot, dropWhile_all _ l hdot]
  simp [h1, h2]

lemma pyFloat_digits (l : List Char) (hne : l ≠ [])
    (hd : ∀ c ∈ l, isDigitC c = true) :
    pyFloat l = some ((digitsToNat l : ℕ) : ℚ) ∧
    pyFloat ('-' :: l) = some (-((digitsToNat l : ℕ) : ℚ)) := by
  have hexp : ∀ c ∈ l, (!isExpChar c) = true := by
    intro c hc
    rw [(digit_not_special c (hd c hc)).2.2.1]
    rfl
  constructor
  · obtain ⟨c₀, r, rfl⟩ : ∃ c₀ r, l = c₀ :: r := by
      cases l with
      | nil => exact absurd rfl hne
      | cons a t => exact ⟨a, t, rfl⟩
    have hc0 := digit_not_special c₀ (hd c₀ (List.mem_cons_self c₀ r))
    simp only [pyFloat, if_neg hc0.1, if_neg hc0.2.1]
    rw [takeWhile_all _ (c₀ :: r) hexp, dropWhile_all _ (c₀ :: r) hexp]
    rw [parseMantissa_digits false (c₀ :: r) hne hd]
    simp [applySign]
  · rw [show pyFloat ('-' :: l) =
        (match l.dropWhile (fun c => !isExpChar c) with
          | [] => parseMantissa true (l.takeWhile (fun c => !isExpChar c))
          | _ :: ex =>
            (parseMantissa true (l.takeWhile (fun c => !isExpChar c))).bind
              fun m => (parseExp ex).map fun e => m * zpow10 e) from rfl]
    rw [takeWhile_all _ l hexp, dropWhile_all _ l hexp]
    rw [parseMantissa_digits true l hne hd]
    simp [applySign]

lemma stripCommaWS_append (l₁ l₂ : List Char) :
    stripCommaWS (l₁ ++ l₂) = stripCommaWS l₁ ++ stripCommaWS l₂ := by
  simp [stripCommaWS]

lemma stripCommaWS_digits_pred (c : Char) (h : isDigitC c = true) :
    (!(decide (c = ',') || isPySpace c)) = true := by
  obtain ⟨-, -, -, -, hcm, hsp, -⟩ := digit_not_special c h
  simp [hcm, hsp]

/-- C2: normalizing the thousands-separated representation of `n`
returns exactly `n`, and normalizing its parenthesized (accounting
negative) form returns exactly `-n`; the parenthesized case is detected
structurally from the cleaned literal's brackets, the input containing
no minus sign. -/
theorem normalization_round_trip (n : ℕ) :
    clean_number (some (thousandsRep n)) = (n : ℚ) ∧
    clean_number (some ("(" ++ thousandsRep n ++ ")")) = -(n : ℚ) := by
  by_cases hn : n = 0
  · subst hn
    exact ⟨by decide, by decide⟩
  · have hrep : thousandsRep n = String.mk ((sep3 ((toRevDigits n).map digitChar)).reverse) := by
      simp [thousandsRep, hn]
    set C : List Char := (toRevDigits n).map digitChar with hC
    have hCdig : ∀ c ∈ C, isDigitC c = true := by
      intro c hc
      rw [hC] at hc
      obtain ⟨d, hd, rfl⟩ := List.mem_map.mp hc
      exact (digitChar_props d (toRevDigits_lt n d hd)).1
    have hCne : C ≠ [] := by
      rw [hC]
      simp only [ne_eq, List.map_eq_nil_iff]
      exact toRevDigits_ne_nil n hn
    have hrevdig : ∀ c ∈ C.reverse, isDigitC c = true :=
      fun c hc => hCdig c (List.mem_reverse.mp hc)
    have hrevne : C.reverse ≠ [] := by
      simp only [ne_eq, List.reverse_eq_nil_iff]
      exact hCne
    have hfilter : stripCommaWS ((sep3 C).reverse) = C.reverse := by
      unfold stripCommaWS
      rw [List.filter_reverse]
      rw [sep3_filter _ (by decide) C (fun c hc => stripCommaWS_digits_pred c (hCdig c hc))]
    have hval : ((digitsToNat C.reverse : ℕ) : ℚ) = (n : ℚ) := by
      have : digitsToNat C.reverse = n := by
        rw [hC, digitsToNat_rev_map (toRevDigits n) (toRevDigits_lt n), toRevDigits_val]
      exact_mod_cast congrArg (fun m : ℕ => (m : ℚ)) this
    constructor
    · rw [hrep]
      show clean_number_chars ((sep3 C).reverse) = (n : ℚ)
      unfold clean_number_chars
      rw [isEmpty_false_of_ne (by
        simp only [ne_eq, List.reverse_eq_nil_iff]
        exact sep3_ne_nil C hCne)]
      simp only [Bool.false_eq_true, if_false]
      rw [hfilter]
      have hpa : parenAdjust C.reverse = C.reverse := by
        unfold parenAdjust
        rw [if_neg]
        rintro ⟨h1, -⟩
        have hmem : '(' ∈ C.reverse :=
          List.mem_of_mem_head? (by rw [h1]; exact rfl)
        exact absurd (hrevdig '(' hmem) (by decide)
      rw [hpa, (pyFloat_digits C.reverse hrevne hrevdig).1]
      exact hval
    · rw [hrep]
      show clean_number_chars (('(' :: (sep3 C).reverse) ++ [')']) = -(n : ℚ)
      unfold clean_number_chars
      rw [isEmpty_false_of_ne (by simp)]
      simp only [Bool.false_eq_true, if_false]
      have hstrip : stripCommaWS (('(' :: (sep3 C).reverse) ++ [')'])
          = ('(' :: C.reverse) ++ [')'] := by
        rw [show ('(' :: (sep3 C).reverse) ++ [')']
          = ['('] ++ (sep3 C).reverse ++ [')'] from rfl]
        rw [stripCommaWS_append, stripCommaWS_append, hfilter]
        rfl
      rw [hstrip]
      have hpa : parenAdjust (('(' :: C.reverse) ++ [')']) = '-' :: C.reverse := by
        unfold parenAdjust
        rw [if_pos ⟨rfl, List.getLast?_concat _⟩]
        simp
      rw [hpa, (pyFloat_digits C.reverse hrevne hrevdig).2]
      rw [hval]

/-! ### Coverage Analyzer invariants (C6, C10) -/

lemma countEntries_inv : ∀ (n : ℕ) (es : Entries) (pfx : String), sizeOf es ≤ n →
    (countEntries es pfx).1 ≤ (countEntries es pfx).2.1 ∧
    (countEntries es pfx).1 + (countEntries es pfx).2.2.length = (countEntries es pfx).2.1 := by
  intro n
  induction n with
  | zero =>
    intro es pfx h
    exfalso
    cases es <;> simp at h
  | succ n ih =>
    intro es pfx h
    cases es with
    | nil => simp [countEntries]
    | cons k v rest =>
      have hrest : sizeOf rest ≤ n := by
        simp at h
        omega
      by_cases hk : k ∈ excludedKeys
      · rw [show countEntries (.cons k v rest) pfx = countEntries rest pfx from by
          simp [countEntries, hk]]
        exact ih rest pfx hrest
      · obtain ⟨h1, h2⟩ := ih rest pfx hrest
        cases v with
        | num q =>
          by_cases hq : q = 0 <;>
            · constructor <;> simp [countEntries, hk, hq] <;> omega
        | dict es2 =>
          have hes2 : sizeOf es2 ≤ n := by
            simp at h
            omega
          obtain ⟨h3, h4⟩ := ih es2 (if pfx = "" then k else pfx ++ "." ++ k) hes2
          constructor <;> simp [countEntries, countVal, hk] <;> omega
        | str s =>
          constructor <;> simp [countEntries, hk] <;> omega
        | vnone =>
          constructor <;> simp [countEntries, hk] <;> omega
        | listv xs =>
          constructor <;> simp [countEntries, hk] <;> omega

lemma countVal_inv (v : PyVal) (pfx : String) :
    (countVal v pfx).1 ≤ (countVal v pfx).2.1 ∧
    (countVal v pfx).1 + (countVal v pfx).2.2.length = (countVal v pfx).2.1 := by
  cases v with
  | dict es =>
    rw [show countVal (.dict es) pfx = countEntries es pfx from by simp [countVal]]
    exact countEntries_inv (sizeOf es) es pfx (le_refl _)
  | num q => simp [countVal]
  | str s => simp [countVal]
  | vnone => simp [countVal]
  | listv xs => simp [countVal]

/-- C6: for every populated schema, `0 ≤ extraction_rate ≤ 100`,
`extracted_fields + len(missing_fields) = total_fields`, and a schema
with no numeric leaves gets rate `0` rather than a division by zero. -/
theorem coverage_bounds (v : PyVal) :
    0 ≤ (count_extracted_fields v).extraction_rate ∧
    (count_extracted_fields v).extraction_rate ≤ 100 ∧
    (count_extracted_fields v).extracted_fields +
      (count_extracted_fields v).missing_fields.length =
      (count_extracted_fields v).total_fields ∧
    ((count_extracted_fields v).total_fields = 0 →
      (count_extracted_fields v).extraction_rate = 0) := by
  obtain ⟨hle, hsum⟩ := countVal_inv v ""
  refine ⟨?_, ?_, hsum, ?_⟩
  · show (0 : ℚ) ≤ if (countVal v "").2.1 > 0 then
      ((countVal v "").1 : ℚ) / ((countVal v "").2.1 : ℚ) * 100 else 0
    split
    · positivity
    · exact le_refl 0
  · show (if (countVal v "").2.1 > 0 then
      ((countVal v "").1 : ℚ) / ((countVal v "").2.1 : ℚ) * 100 else 0) ≤ 100
    split
    · rename_i ht
      have h1 : ((countVal v "").1 : ℚ) ≤ ((countVal v "").2.1 : ℚ) := by exact_mod_cast hle
      have h2 : (0 : ℚ) < ((countVal v "").2.1 : ℚ) := by exact_mod_cast ht
      calc ((countVal v "").1 : ℚ) / ((countVal v "").2.1 : ℚ) * 100
          ≤ 1 * 100 := by
            apply mul_le_mul_of_nonneg_right _ (by norm_num)
            exact (div_le_one h2).mpr h1
        _ = 100 := by norm_num
    · norm_num
  · intro ht
    show (if (countVal v "").2.1 > 0 then
      ((countVal v "").1 : ℚ) / ((countVal v "").2.1 : ℚ) * 100 else 0) = 0
    have ht' : (countVal v "").2.1 = 0 := ht
    rw [if_neg]
    omega

/-- C10: `count_fields` counts exactly the int/float-valued entries
whose key is not one of the three excluded names (`company_name`,
`report_date` and also `report_title`); the exclusion is tested before
anything else, so it applies at every depth and even prevents recursion
into a section stored under an excluded key; a nested dict under a
non-excluded key is recursed into with the extended dotted path; and a
value that is neither numeric nor a dict (a string, None, or a list) is
neither counted, nor recursed into, nor reported missing. -/
theorem coverage_counts_numeric_non_excluded (k : String) (v : PyVal) (rest : Entries)
    (pfx : String) :
    excludedKeys = ["company_name", "report_date", "report_title"] ∧
    (k ∈ excludedKeys → countEntries (.cons k v rest) pfx = countEntries rest pfx) ∧
    (k ∉ excludedKeys →
      (∀ q, v = .num q →
        countEntries (.cons k v rest) pfx =
          (if q ≠ 0 then
            ((countEntries rest pfx).1 + 1, (countEntries rest pfx).2.1 + 1,
              (countEntries rest pfx).2.2)
          else
            ((countEntries rest pfx).1, (countEntries rest pfx).2.1 + 1,
              (if pfx = "" then k else pfx ++ "." ++ k) :: (countEntries rest pfx).2.2))) ∧
      (∀ es2, v = .dict es2 →
        countEntries (.cons k v rest) pfx =
          ((countEntries es2 (if pfx = "" then k else pfx ++ "." ++ k)).1
              + (countEntries rest pfx).1,
            (countEntries es2 (if pfx = "" then k else pfx ++ "." ++ k)).2.1
              + (countEntries rest pfx).2.1,
            (countEntries es2 (if pfx = "" then k else pfx ++ "." ++ k)).2.2
              ++ (countEntries rest pfx).2.2)) ∧
      (∀ s, v = .str s → countEntries (.cons k v rest) pfx = countEntries rest pfx) ∧
      (v = .vnone → countEntries (.cons k v rest) pfx = countEntries rest pfx) ∧
      (∀ xs, v = .listv xs → countEntries (.cons k v rest) pfx = countEntries rest pfx)) := by
  refine ⟨rfl, ?_, ?_⟩
  · intro hk
    simp [countEntries, hk]
  · intro hk
    refine ⟨?_, ?_, ?_, ?_, ?_⟩
    · rintro q rfl
      by_cases hq : q = 0 <;> simp [countEntries, hk, hq]
    · rintro es2 rfl
      simp [countEntries, countVal, hk]
    · rintro s rfl
      simp [countEntries, hk]
    · rintro rfl
      simp [countEntries, hk]
    · rintro xs rfl
      simp [countEntries, hk]

/-- Witness for C10: the excluded `report_title` key is skipped even
with a numeric value; a zero numeric leaf is counted and reported
missing; a string entry is ignored. -/
theorem coverage_counts_numeric_non_excluded_witness :
    countEntries (.cons "report_title" (.num 3) .nil) "a" = countEntries .nil "a" ∧
    countEntries (.cons "x" (.num 0) .nil) "" = (0, 1, ["x"]) ∧
    countEntries (.cons "y" (.str "s") .nil) "" = countEntries .nil "" := by
  refine ⟨(coverage_counts_numeric_non_excluded "report_title" (.num 3) .nil "a").2.1
      (by decide), ?_,
    (((coverage_counts_numeric_non_excluded "y" (.str "s") .nil "").2.2
      (by decide)).2.2.1) "s" rfl⟩
  have h := (((coverage_counts_numeric_non_excluded "x" (.num 0) .nil "").2.2
    (by decide)).1) 0 rfl
  rw [h]
  decide

end BalanceSheet
